import Mathlib

/-!
Verification development for the `tmv` repository: a 2D physics-platformer
consisting of a TypeScript host shell (`src/web/src/App.ts`, plus an older
shell variant), tileset data (`src/web/public/assets/main_tiles.tsx`), and a
Rust/WASM simulation engine (the `tmv` crate referenced by `Cargo.toml`).

The engine crate itself is not present in the repository sources; where a
property is decided by engine code, the engine's behaviour is modelled from
the specification (each such definition carries a doc comment starting with
`Modelled from the spec:`).  The host-shell behaviour (`rafLoop`,
`onKeyDown`, `onKeyUp`, save-restore wiring) and the tileset data are
embedded directly from the sources.
-/

namespace Tmv

/-- Modelled from the spec: the six player abilities of the data model,
"current ability set (subset of \x7bwall_jump, dash, water, small, lava,
double_jump\x7d)".  The names also appear verbatim in the tileset's powerup
markers and in `App.ts` line 17. -/
inductive Ability
  | wall_jump
  | dash
  | water
  | small
  | lava
  | double_jump
deriving DecidableEq

/-- The string name of an ability, as exchanged with the host shell. -/
def Ability.toName : Ability → String
  | .wall_jump => "wall_jump"
  | .dash => "dash"
  | .water => "water"
  | .small => "small"
  | .lava => "lava"
  | .double_jump => "double_jump"

/-- The six ability names, in the order `App.ts` line 17 lists them. -/
def allAbilityNames : List String :=
  ["wall_jump", "dash", "water", "small", "lava", "double_jump"]

/-- Numeric code of an ability inside the save blob. -/
def Ability.toCode : Ability → Nat
  | .wall_jump => 0
  | .dash => 1
  | .water => 2
  | .small => 3
  | .lava => 4
  | .double_jump => 5

/-- Decode an ability code from a save blob; unknown codes are rejected. -/
def Ability.ofCode : Nat → Option Ability
  | 0 => some .wall_jump
  | 1 => some .dash
  | 2 => some .water
  | 3 => some .small
  | 4 => some .lava
  | 5 => some .double_jump
  | _ => none

/-- Parse the `powerup` property value of a tileset marker tile. -/
def Ability.ofName : String → Option Ability
  | "wall_jump" => some .wall_jump
  | "dash" => some .dash
  | "water" => some .water
  | "small" => some .small
  | "lava" => some .lava
  | "double_jump" => some .double_jump
  | _ => none

/-- Modelled from the spec: the logical keys of the Input Intent Translator
("set of currently-held logical keys").  The engine's mapping from DOM key
strings to logical keys is engine-internal; the model works with logical
keys directly. -/
inductive GameKey
  | jump
  | dash
  | left
  | right
  | other (code : Nat)
deriving DecidableEq

/-- Modelled from the spec: the two events of the Input Intent Translator,
`KeyDown(key)` and `KeyUp(key)`. -/
inductive InputEvent
  | keyDown (k : GameKey)
  | keyUp (k : GameKey)
deriving DecidableEq

/-- Modelled from the spec: translator state, the held-key set plus the
per-key "already consumed this press" record required for edge-triggered
discrete actions (spec section 4.4). -/
structure InputState where
  held : List GameKey
  consumed : List GameKey
deriving DecidableEq

/-- Modelled from the spec: applying a discrete input event.  A repeated
key-down for an already-held key is a no-op (idempotent); a fresh key-down
starts a new, not-yet-consumed press; key-up releases the key. -/
def applyInputEvent (ev : InputEvent) (s : InputState) : InputState :=
  match ev with
  | .keyDown k =>
      if k ∈ s.held then s
      else { held := k :: s.held, consumed := s.consumed.erase k }
  | .keyUp k => { held := s.held.erase k, consumed := s.consumed.erase k }

/-- Whether the jump key is held with its press not yet consumed, i.e. the
translator will report jump-pressed-this-step at the next step. -/
def jumpPending (s : InputState) : Bool :=
  decide (GameKey.jump ∈ s.held) && !decide (GameKey.jump ∈ s.consumed)

/-- Modelled from the spec: when the simulation step reads the translator,
every held discrete-action key (jump, dash) has its current press marked
consumed, so the action fires once per physical press. -/
def InputState.consume (s : InputState) : InputState :=
  { s with
    consumed :=
      (if GameKey.jump ∈ s.held then [GameKey.jump] else []) ++
      (if GameKey.dash ∈ s.held then [GameKey.dash] else []) ++ s.consumed }

/-- Solidity class of a tile, from the `class` attribute of the tileset XML
(`nonsolid`, `marker`); tiles listed without a special class, and all
unlisted tile ids below the tile count, are solid ground tiles. -/
inductive Solidity
  | solid
  | nonsolid
  | marker
deriving DecidableEq

/-- A tile-local hazard polygon from the tileset XML: the `<object>` anchor
`(x, y)` plus the `<polygon>` point offsets. -/
structure TilePolygon where
  anchor : Int × Int
  points : List (Int × Int)
deriving DecidableEq

/-- One tileset entry: solidity class, optional semantic `name` property,
optional `count` property, optional `powerup` property, optional hazard
polygon. -/
structure TileDef where
  solidity : Solidity
  name : Option String := none
  count : Option Nat := none
  powerup : Option String := none
  polygon : Option TilePolygon := none
deriving DecidableEq

/-- The default definition of a tile id that the tileset XML does not list
specially: a plain solid ground tile. -/
def defaultTile : TileDef := { solidity := .solid }

/-- A tileset: the `tilecount` attribute plus the specially-listed tiles. -/
structure Tileset where
  tileCount : Nat
  defs : List (Nat × TileDef)
deriving DecidableEq

/-- Look up a referenced tile id.  Ids at or beyond the tile count have no
tileset entry; listed ids get their listed definition, remaining in-range
ids the default solid definition. -/
def Tileset.lookup (ts : Tileset) (id : Nat) : Option TileDef :=
  if id < ts.tileCount then
    some ((((ts.defs.find? (fun p => p.1 == id))).map Prod.snd).getD defaultTile)
  else none

/-- Map data consumed by `load`: a list of grid cells, each holding a tile
id from the tileset. -/
structure MapData where
  cells : List ((Nat × Nat) × Nat)
deriving DecidableEq

/-- Whether a map cell resolves to the `spawn` marker tile. -/
def cellIsSpawn (ts : Tileset) (c : (Nat × Nat) × Nat) : Bool :=
  match ts.lookup c.2 with
  | some d => d.name == some "spawn"
  | none => false

/-- Kinds of dynamic entity spawned from level markers. -/
inductive EntityKind
  | thwump
  | turret
  | movingPlatform
deriving DecidableEq

/-- Which marker/tile names spawn which dynamic-entity kind. -/
def entityKindOfName : String → Option EntityKind
  | "thwump" => some .thwump
  | "turn_laser" => some .turret
  | "shooter1" => some .turret
  | "shooter2" => some .turret
  | "moving_platform" => some .movingPlatform
  | _ => none

/-- Clamp one coordinate of a hazard-polygon vertex into the tile's
32-by-32 bounds (spec 4.1 policy: clamp silently, do not fail). -/
def clampCoord (v : Int) : Int := max 0 (min 32 v)

/-- Clamp a polygon vertex into the tile bounds. -/
def clampPoint (p : Int × Int) : Int × Int := (clampCoord p.1, clampCoord p.2)

/-- The tile-local absolute vertices of a hazard polygon: object anchor
plus each point offset. -/
def absolutePolygon (tp : TilePolygon) : List (Int × Int) :=
  tp.points.map (fun p => (tp.anchor.1 + p.1, tp.anchor.2 + p.2))

/-- Absolute polygon vertices with the silent clamp applied. -/
def clampedPolygon (tp : TilePolygon) : List (Int × Int) :=
  (absolutePolygon tp).map clampPoint

/-- Modelled from the spec: the queryable Level produced by `load` —
solid-collision cells, marker locations by kind, clamped hazard polygons,
zone cells, dynamic-entity spawn definitions and the spawn cell
(spec section 3, "Level"). -/
structure Level where
  solidCells : List (Nat × Nat)
  coinCells : List (Nat × Nat)
  powerupCells : List ((Nat × Nat) × Ability)
  vanishCells : List (Nat × Nat)
  hazardPolys : List ((Nat × Nat) × List (Int × Int))
  lavaCells : List (Nat × Nat)
  waterCells : List (Nat × Nat)
  entityDefs : List ((Nat × Nat) × EntityKind)
  spawn : Nat × Nat
deriving DecidableEq

/-- The map cells of `md` resolved against tileset `ts`. -/
def resolvedCells (ts : Tileset) (md : MapData) : List ((Nat × Nat) × TileDef) :=
  md.cells.filterMap (fun c => (ts.lookup c.2).map (fun d => (c.1, d)))

/-- Build the Level from resolved map cells and the spawn cell. -/
def buildLevel (ts : Tileset) (md : MapData) (spawnCell : Nat × Nat) : Level :=
  let rc := resolvedCells ts md
  { solidCells := (rc.filter (fun c => c.2.solidity == .solid)).map Prod.fst
    coinCells :=
      (rc.filter (fun c => c.2.name == some "coin" || c.2.name == some "rare_coin")).map Prod.fst
    powerupCells :=
      rc.filterMap (fun c =>
        if c.2.name == some "powerup" then
          (c.2.powerup.bind Ability.ofName).map (fun a => (c.1, a))
        else none)
    vanishCells := (rc.filter (fun c => c.2.name == some "vanish_block")).map Prod.fst
    hazardPolys := rc.filterMap (fun c => c.2.polygon.map (fun tp => (c.1, clampedPolygon tp)))
    lavaCells := (rc.filter (fun c => c.2.name == some "lava")).map Prod.fst
    waterCells := (rc.filter (fun c => c.2.name == some "water")).map Prod.fst
    entityDefs :=
      rc.filterMap (fun c =>
        (c.2.name.bind entityKindOfName).map (fun k => (c.1, k)))
    spawn := spawnCell }

/-- Modelled from the spec: `load(tileset_defs, map_data) -> Level`, failing
with `MalformedMapError` (here: `none`) if a referenced tile id has no
tileset entry or if no spawn marker exists; out-of-bounds hazard polygons
are clamped silently rather than failing (spec 4.1). -/
def load (ts : Tileset) (md : MapData) : Option Level :=
  if md.cells.all (fun c => decide (c.2 < ts.tileCount)) then
    match md.cells.find? (fun c => cellIsSpawn ts c) with
    | some sc => some (buildLevel ts md sc.1)
    | none => none
  else none

/-- The `main_tiles` tileset, transcribed from
`src/web/public/assets/main_tiles.tsx` (tiledversion 1.9.2, tilecount 128).
Tile 0 is the spike tile whose hazard object is anchored at `(4, 33)` with
polygon point offsets `(0,0) (12,-26) (25,1)`. -/
def mainTiles : Tileset :=
  { tileCount := 128
    defs :=
      [ (0, { solidity := .nonsolid, name := some "spike",
              polygon := some { anchor := (4, 33), points := [(0, 0), (12, -26), (25, 1)] } })
      , (1, { solidity := .marker, name := some "coin" })
      , (2, { solidity := .marker, name := some "rare_coin" })
      , (3, { solidity := .nonsolid, name := some "shooter1" })
      , (4, { solidity := .nonsolid, name := some "save_left" })
      , (5, { solidity := .nonsolid })
      , (6, { solidity := .nonsolid, name := some "coin_wall" })
      , (8, { solidity := .marker, name := some "spawn" })
      , (9, { solidity := .nonsolid, name := some "water" })
      , (10, { solidity := .nonsolid, name := some "water" })
      , (12, { solidity := .nonsolid, name := some "platform" })
      , (13, { solidity := .nonsolid, name := some "platform" })
      , (14, { solidity := .nonsolid, name := some "coin_wall" })
      , (16, { solidity := .marker, name := some "hp_up" })
      , (17, { solidity := .nonsolid, name := some "lava" })
      , (18, { solidity := .nonsolid, name := some "water" })
      , (19, { solidity := .nonsolid })
      , (20, { solidity := .nonsolid })
      , (21, { solidity := .marker, name := some "moving_platform" })
      , (22, { solidity := .nonsolid, name := some "coin_wall", count := some 5 })
      , (23, { solidity := .nonsolid, name := some "coin_wall", count := some 5 })
      , (25, { solidity := .marker, name := some "stone" })
      , (26, { solidity := .nonsolid, name := some "water" })
      , (27, { solidity := .nonsolid })
      , (28, { solidity := .nonsolid })
      , (29, { solidity := .marker, name := some "vanish_block" })
      , (30, { solidity := .nonsolid, name := some "coin_wall", count := some 10 })
      , (31, { solidity := .nonsolid, name := some "coin_wall", count := some 10 })
      , (33, { solidity := .marker, name := some "powerup", powerup := some "wall_jump" })
      , (34, { solidity := .marker, name := some "thwump" })
      , (35, { solidity := .marker, name := some "turn_laser" })
      , (36, { solidity := .nonsolid, name := some "shooter2" })
      , (38, { solidity := .nonsolid, name := some "coin_wall", count := some 20 })
      , (39, { solidity := .nonsolid, name := some "coin_wall", count := some 20 })
      , (41, { solidity := .marker, name := some "powerup", powerup := some "dash" })
      , (43, { solidity := .nonsolid })
      , (44, { solidity := .nonsolid })
      , (46, { solidity := .nonsolid, name := some "coin_wall", count := some 15 })
      , (47, { solidity := .nonsolid, name := some "coin_wall", count := some 15 })
      , (49, { solidity := .marker, name := some "powerup", powerup := some "water" })
      , (50, { solidity := .marker, name := some "powerup", powerup := some "small" })
      , (51, { solidity := .nonsolid })
      , (52, { solidity := .nonsolid })
      , (54, { solidity := .nonsolid, name := some "coin_wall", count := some 30 })
      , (55, { solidity := .nonsolid, name := some "coin_wall", count := some 30 })
      , (57, { solidity := .marker, name := some "powerup", powerup := some "lava" })
      , (58, { solidity := .marker, name := some "powerup", powerup := some "double_jump" })
      , (64, { solidity := .nonsolid, name := some "beehive" })
      , (65, { solidity := .nonsolid })
      , (67, { solidity := .nonsolid })
      , (68, { solidity := .nonsolid })
      , (72, { solidity := .nonsolid })
      , (73, { solidity := .nonsolid })
      , (75, { solidity := .nonsolid })
      , (76, { solidity := .nonsolid })
      ] }

/-- A two-cell map: the spike tile (id 0) at the origin and a spawn marker
(id 8) next to it.  Used to check the clamp policy on the spike tile's
out-of-bounds hazard polygon. -/
def spikeMap : MapData := { cells := [((0, 0), 0), ((1, 0), 8)] }

/-- Physics constants (spec only fixes their existence, not their values). -/
def moveSpeed : ℚ := 160

/-- Vertical jump impulse speed. -/
def jumpSpeed : ℚ := 300

/-- Gravity acceleration. -/
def gravity : ℚ := 800

/-- Modelled from the spec: the fixed HP damage dealt by lava/hazard
contact. -/
def hazardDamage : Int := 1

/-- Starting HP of a freshly loaded player. -/
def initialHp : Int := 3

/-- Modelled from the spec: the mutable Player owned by the engine —
position, velocity, HP (integer, clamped at or above 0), coin count,
ability set, and the once-per-airborne double-jump budget. -/
structure Player where
  pos : ℚ × ℚ
  vel : ℚ × ℚ
  hp : Int
  coins : Nat
  abilities : List Ability
  usedDoubleJump : Bool
deriving DecidableEq

/-- Modelled from the spec: a dynamic entity (thwump, turret, moving
platform) with a position and a lifecycle phase. -/
structure Entity where
  kind : EntityKind
  pos : ℚ × ℚ
  phase : Nat
deriving DecidableEq

/-- Pixel-space centre of a grid cell (tiles are 32 by 32). -/
def cellCenter (c : Nat × Nat) : ℚ × ℚ := (32 * (c.1 : ℚ) + 16, 32 * (c.2 : ℚ) + 16)

/-- The level-default dynamic entities: one per entity spawn marker, at its
marker cell, in the idle phase. -/
def defaultEntities (lvl : Level) : List Entity :=
  lvl.entityDefs.map (fun d => { kind := d.2, pos := cellCenter d.1, phase := 0 })

/-- Modelled from the spec: the World — shared read-only Level, Player,
dynamic entities, collected-coin set, vanished-block set, and the input
translator state. -/
structure World where
  level : Level
  player : Player
  collected : List (Nat × Nat)
  vanished : List (Nat × Nat)
  entities : List Entity
  tracker : InputState
deriving DecidableEq

/-- Modelled from the spec: the World created at load time from the Level
and its spawn marker — fresh player at the spawn cell, nothing collected,
entities at level defaults, no keys held. -/
def initWorld (lvl : Level) : World :=
  { level := lvl
    player :=
      { pos := cellCenter lvl.spawn, vel := (0, 0), hp := initialHp, coins := 0,
        abilities := [], usedDoubleJump := false }
    collected := []
    vanished := []
    entities := defaultEntities lvl
    tracker := { held := [], consumed := [] } }

/-- The snapshot returned by `character_state()` (App.ts line 12 consumes
`hp` and `power_ups`). -/
structure CharState where
  hp : Int
  power_ups : List String
deriving DecidableEq

/-- Modelled from the spec: `character_state() -> \x7bhp: int, power_ups:
set of string\x7d`, a read-only projection of the World. -/
def charState (w : World) : CharState :=
  { hp := w.player.hp, power_ups := w.player.abilities.map Ability.toName }

/-- Modelled from the spec: the per-step collision-query results that the
narrow-phase (the external rapier2d collision library) reports to the step
logic — the time delta, whether the player ended the step grounded, which
marker cells the player overlaps, and whether the player overlaps a
lava/spike hazard volume. -/
structure StepEnv where
  dt : ℚ
  grounded : Bool
  touched : List (Nat × Nat)
  onHazard : Bool
deriving DecidableEq

/-- Accumulator for hazard/pickup resolution within one step. -/
structure PickupState where
  coins : Nat
  abilities : List Ability
  collected : List (Nat × Nat)
  vanished : List (Nat × Nat)
deriving DecidableEq

/-- Modelled from the spec: resolving one overlapped marker cell.  An
uncollected coin marker increments the coin count and is marked collected
(idempotent afterwards); a powerup marker grants its ability exactly once;
a vanish-block cell is added to the vanished set. -/
def pickupCell (lvl : Level) (st : PickupState) (c : Nat × Nat) : PickupState :=
  if c ∈ lvl.coinCells ∧ c ∉ st.collected then
    { st with coins := st.coins + 1, collected := c :: st.collected }
  else
    match lvl.powerupCells.find? (fun p => p.1 == c) with
    | some pa =>
        if pa.2 ∈ st.abilities then st else { st with abilities := pa.2 :: st.abilities }
    | none =>
        if c ∈ lvl.vanishCells ∧ c ∉ st.vanished then
          { st with vanished := c :: st.vanished }
        else st

/-- The held-direction horizontal intent read from the translator. -/
def intentX (s : InputState) : ℚ :=
  (if GameKey.right ∈ s.held then 1 else 0) - (if GameKey.left ∈ s.held then 1 else 0)

/-- Whether this step applies a jump impulse: the translator reports an
unconsumed jump press, and the player is grounded or (with `double_jump`
unlocked) still has the airborne jump budget. -/
def stepFired (env : StepEnv) (w : World) : Bool :=
  jumpPending w.tracker &&
    (env.grounded ||
      (decide (Ability.double_jump ∈ w.player.abilities) && !w.player.usedDoubleJump))

/-- Modelled from the spec: one simulation step (spec sections 4.2 and 5).
Input-intent resolution happens first (reading and consuming the
translator's discrete-action presses), then physics integration (held
directions drive horizontal velocity, gravity or the jump impulse drives
vertical velocity), then hazard and pickup resolution against the
collision-query results. -/
def stepWorld (env : StepEnv) (w : World) : World :=
  let fired := stepFired env w
  let tracker2 := w.tracker.consume
  let p := w.player
  let usedDJ := if env.grounded then false else (p.usedDoubleJump || fired)
  let vx := moveSpeed * intentX w.tracker
  let vy := if fired then -jumpSpeed else p.vel.2 + gravity * env.dt
  let pos2 := (p.pos.1 + vx * env.dt, p.pos.2 + vy * env.dt)
  let hp2 :=
    if env.onHazard ∧ Ability.lava ∉ p.abilities then max 0 (p.hp - hazardDamage)
    else p.hp
  let st0 : PickupState :=
    { coins := p.coins, abilities := p.abilities, collected := w.collected,
      vanished := w.vanished }
  let st := env.touched.foldl (pickupCell w.level) st0
  { w with
    player :=
      { pos := pos2, vel := (vx, vy), hp := hp2, coins := st.coins,
        abilities := st.abilities, usedDoubleJump := usedDJ }
    collected := st.collected
    vanished := st.vanished
    tracker := tracker2 }

/-- The version tag of the persisted-state schema (spec section 6:
"versioned, forward-readable schema"). -/
def saveVersion : Nat := 1

/-- Modelled from the spec: the persisted fields of the save blob —
position, HP, coins, unlocked abilities, collected-coin set and
vanished-block set (spec 4.5).  Dynamic-entity state is deliberately
absent: it resets to level defaults on load. -/
structure SaveData where
  posX : ℚ
  posY : ℚ
  hp : Int
  coins : Nat
  abilities : List Ability
  collected : List (Nat × Nat)
  vanished : List (Nat × Nat)
deriving DecidableEq

/-- Encode an integer into blob tokens: a sign token then the magnitude. -/
def encodeInt : Int → List Nat
  | Int.ofNat n => [0, n]
  | Int.negSucc n => [1, n + 1]

/-- Encode a rational into blob tokens: numerator then denominator. -/
def encodeRat (q : ℚ) : List Nat := encodeInt q.num ++ [q.den]

/-- Encode an ability into blob tokens. -/
def encodeAbility (a : Ability) : List Nat := [a.toCode]

/-- Encode a grid cell into blob tokens. -/
def encodeCell (c : Nat × Nat) : List Nat := [c.1, c.2]

/-- Encode a list into blob tokens: its length then each element. -/
def encodeListOf (enc : α → List Nat) (xs : List α) : List Nat :=
  xs.length :: xs.foldr (fun x acc => enc x ++ acc) []

/-- Encode the persisted fields into the opaque save blob. -/
def encodeSave (sd : SaveData) : List Nat :=
  [saveVersion] ++ encodeRat sd.posX ++ encodeRat sd.posY ++ encodeInt sd.hp ++
    [sd.coins] ++ encodeListOf encodeAbility sd.abilities ++
    encodeListOf encodeCell sd.collected ++ encodeListOf encodeCell sd.vanished

/-- The persisted projection of a World. -/
def toSaveData (w : World) : SaveData :=
  { posX := w.player.pos.1, posY := w.player.pos.2, hp := w.player.hp,
    coins := w.player.coins, abilities := w.player.abilities,
    collected := w.collected, vanished := w.vanished }

/-- Modelled from the spec: `serialize(World) -> opaque string` — here the
opaque blob is a token sequence. -/
def serializeWorld (w : World) : List Nat := encodeSave (toSaveData w)

/-- A blob reader: consumes a prefix of the token stream, returning the
parsed value and the remaining tokens, or `none` on corrupt input. -/
def readPure (a : α) : List Nat → Option (α × List Nat) := fun l => some (a, l)

/-- The always-failing reader (corrupt input). -/
def readNone : List Nat → Option (α × List Nat) := fun _ => none

/-- Sequence two readers. -/
def rbind (p : List Nat → Option (α × List Nat))
    (q : α → List Nat → Option (β × List Nat)) : List Nat → Option (β × List Nat) :=
  fun l =>
    match p l with
    | some (a, r) => q a r
    | none => none

/-- Read one token. -/
def readNat : List Nat → Option (Nat × List Nat)
  | [] => none
  | x :: rest => some (x, rest)

/-- Read an integer: sign token then magnitude. -/
def readInt : List Nat → Option (Int × List Nat) :=
  rbind readNat (fun sign =>
    rbind readNat (fun mag =>
      if sign = 0 then readPure (mag : Int)
      else if sign = 1 then readPure (-(mag : Int))
      else readNone))

/-- Read a rational: integer numerator then positive denominator. -/
def readRat : List Nat → Option (ℚ × List Nat) :=
  rbind readInt (fun num =>
    rbind readNat (fun den =>
      if den = 0 then readNone else readPure ((num : ℚ) / (den : ℚ))))

/-- Read an ability code, rejecting unknown codes. -/
def readAbility : List Nat → Option (Ability × List Nat) :=
  rbind readNat (fun code =>
    match Ability.ofCode code with
    | some a => readPure a
    | none => readNone)

/-- Read a grid cell. -/
def readCell : List Nat → Option ((Nat × Nat) × List Nat) :=
  rbind readNat (fun x => rbind readNat (fun y => readPure (x, y)))

/-- Read exactly `n` elements. -/
def readCount (read : List Nat → Option (α × List Nat)) :
    Nat → List Nat → Option (List α × List Nat)
  | 0 => readPure []
  | n + 1 =>
      rbind read (fun a =>
        rbind (readCount read n) (fun as => readPure (a :: as)))

/-- Read a length-prefixed list. -/
def readListOf (read : List Nat → Option (α × List Nat)) :
    List Nat → Option (List α × List Nat) :=
  rbind readNat (fun n => readCount read n)

/-- The reader for the whole persisted schema, version check included. -/
def saveReader : List Nat → Option (SaveData × List Nat) :=
  rbind readNat (fun v =>
    if v = saveVersion then
      rbind readRat (fun px =>
        rbind readRat (fun py =>
          rbind readInt (fun hp =>
            rbind readNat (fun coins =>
              rbind (readListOf readAbility) (fun abs =>
                rbind (readListOf readCell) (fun col =>
                  rbind (readListOf readCell) (fun van =>
                    readPure
                      { posX := px, posY := py, hp := hp, coins := coins,
                        abilities := abs, collected := col, vanished := van })))))))
    else readNone)

/-- Modelled from the spec: the World rebuilt from a decoded save blob —
persisted fields restored (HP re-clamped at 0), everything outside the
persisted set (velocity, airborne-jump budget, dynamic entities, input
translator) reset to its level-default value. -/
def restoreWorld (lvl : Level) (sd : SaveData) : World :=
  { level := lvl
    player :=
      { pos := (sd.posX, sd.posY), vel := (0, 0), hp := max 0 sd.hp,
        coins := sd.coins, abilities := sd.abilities, usedDoubleJump := false }
    collected := sd.collected
    vanished := sd.vanished
    entities := defaultEntities lvl
    tracker := { held := [], consumed := [] } }

/-- Modelled from the spec: `deserialize(opaque string) -> World`, failing
with `CorruptSaveError` (here: `none`) on schema mismatch or unparseable
payload, trailing garbage included. -/
def deserializeWorld (lvl : Level) (blob : List Nat) : Option World :=
  match saveReader blob with
  | some (sd, rest) => if rest = [] then some (restoreWorld lvl sd) else none
  | none => none

/-- From `App.ts` lines 109 to 112 and the spec: `apply_save_data` restores
the decoded World, and on `CorruptSaveError` the call is ignored and the
World is left untouched. -/
def applySaveData (w : World) (blob : List Nat) : World :=
  match deserializeWorld w.level blob with
  | some w2 => w2
  | none => w

/-- An operation the host can direct at the engine during a session: a
simulation step, a discrete input event, or a save-blob restore. -/
inductive Op
  | stepOp (env : StepEnv)
  | inputOp (ev : InputEvent)
  | restoreOp (blob : List Nat)
deriving DecidableEq

/-- Whether an operation is a save restore. -/
def Op.isRestore : Op → Bool
  | .restoreOp _ => true
  | _ => false

/-- Apply one host operation to the World. -/
def applyOp : Op → World → World
  | .stepOp env, w => stepWorld env w
  | .inputOp ev, w => { w with tracker := applyInputEvent ev w.tracker }
  | .restoreOp blob, w => applySaveData w blob

/-- Run a sequence of host operations. -/
def run (w : World) (ops : List Op) : World := ops.foldl (fun w op => applyOp op w) w

/-- Count the jump impulses applied over a sequence of host operations. -/
def countImpulses (w : World) : List Op → Nat
  | [] => 0
  | op :: rest =>
      (match op with
       | .stepOp env => if stepFired env w then 1 else 0
       | _ => 0) + countImpulses (applyOp op w) rest

/-- From `src/web/src/App.ts` rafLoop, lines 30 to 33: on every frame after
the first, the dt handed to `step` is
`Math.min(0.1, 1e-3 * (timestamp - lastTimestamp))`. -/
def rafLoopDt (timestamp lastTimestamp : ℚ) : ℚ :=
  min (1 / 10) ((1 / 1000) * (timestamp - lastTimestamp))

/-- From `src/unnamed/part_000` rafLoop, lines 20 to 22: the dt handed to
`step` is `1e-3 * (timestamp - lastTimestamp)`, with no clamp. -/
def rafLoopDtOld (timestamp lastTimestamp : ℚ) : ℚ :=
  (1 / 1000) * (timestamp - lastTimestamp)

/-- A DOM keyboard event as the host handlers see it: the key string and
the auto-repeat flag. -/
structure KeyboardEvent where
  key : String
  isRepeat : Bool
deriving DecidableEq

/-- The host-shell state the keyboard handlers in `App.ts` touch: the
nullable `gameState` and the `debugOpen` flag. -/
structure HostState where
  gameState : Option World
  debugOpen : Bool
deriving DecidableEq

/-- A call the host shell makes into the wasm engine. -/
inductive EngineCall
  | applyInputCall (evType : String) (key : String)
deriving DecidableEq

/-- From `src/web/src/App.ts` onKeyDown, lines 46 to 56: repeats are
dropped; the `f` key toggles the debug overlay; `apply_input_event` is
invoked only when `gameState` is non-null. -/
def onKeyDown (e : KeyboardEvent) (s : HostState) : HostState × List EngineCall :=
  if e.isRepeat then (s, [])
  else
    let s1 := if e.key = "f" then { s with debugOpen := !s.debugOpen } else s
    match s1.gameState with
    | some _ => (s1, [EngineCall.applyInputCall "KeyDown" e.key])
    | none => (s1, [])

/-- From `src/web/src/App.ts` onKeyUp, lines 58 to 64: repeats are dropped;
`apply_input_event` is invoked only when `gameState` is non-null. -/
def onKeyUp (e : KeyboardEvent) (s : HostState) : HostState × List EngineCall :=
  if e.isRepeat then (s, [])
  else
    match s.gameState with
    | some _ => (s, [EngineCall.applyInputCall "KeyUp" e.key])
    | none => (s, [])

/-- A minimal Level used to instantiate witnesses: one coin marker at the
origin, spawn next to it. -/
def lvl0 : Level :=
  { solidCells := [], coinCells := [(0, 0)], powerupCells := [], vanishCells := [],
    hazardPolys := [], lavaCells := [], waterCells := [], entityDefs := [],
    spawn := (1, 0) }

theorem readNat_encode (x : Nat) (r : List Nat) : readNat (x :: r) = some (x, r) := rfl

theorem rbind_eq {p : List Nat → Option (α × List Nat)}
    (q : α → List Nat → Option (β × List Nat)) {l : List Nat} {a : α} {r : List Nat}
    (h : p l = some (a, r)) : rbind p q l = q a r := by
  simp [rbind, h]

theorem readInt_encode (i : Int) (r : List Nat) : readInt (encodeInt i ++ r) = some (i, r) := by
  cases i with
  | ofNat n => simp [readInt, encodeInt, rbind, readNat, readPure]
  | negSucc n => simp [readInt, encodeInt, rbind, readNat, readPure, Int.negSucc_eq]

theorem readRat_encode (q : ℚ) (r : List Nat) : readRat (encodeRat q ++ r) = some (q, r) := by
  have hq : encodeRat q ++ r = encodeInt q.num ++ (q.den :: r) := by
    simp [encodeRat]
  rw [readRat, rbind, hq, readInt_encode]
  simp [rbind, readNat, readPure, q.den_nz, Rat.num_div_den]

theorem readAbility_encode (a : Ability) (r : List Nat) :
    readAbility (encodeAbility a ++ r) = some (a, r) := by
  cases a <;> rfl

theorem readCell_encode (c : Nat × Nat) (r : List Nat) :
    readCell (encodeCell c ++ r) = some (c, r) := rfl

theorem readCount_encode (read : List Nat → Option (α × List Nat)) (enc : α → List Nat)
    (h : ∀ a r, read (enc a ++ r) = some (a, r)) (xs : List α) (r : List Nat) :
    readCount read xs.length (xs.foldr (fun x acc => enc x ++ acc) [] ++ r) = some (xs, r) := by
  induction xs generalizing r with
  | nil => simp [readCount, readPure]
  | cons x xs ih =>
      have hx :
          (x :: xs).foldr (fun x acc => enc x ++ acc) [] ++ r =
            enc x ++ (xs.foldr (fun x acc => enc x ++ acc) [] ++ r) := by
        simp [List.foldr]
      rw [List.length_cons, readCount, hx, rbind_eq _ (h x _), rbind_eq _ (ih r), readPure]

theorem readListOf_encode (read : List Nat → Option (α × List Nat)) (enc : α → List Nat)
    (h : ∀ a r, read (enc a ++ r) = some (a, r)) (xs : List α) (r : List Nat) :
    readListOf read (encodeListOf enc xs ++ r) = some (xs, r) := by
  have hx : encodeListOf enc xs ++ r =
      xs.length :: (xs.foldr (fun x acc => enc x ++ acc) [] ++ r) := by
    simp [encodeListOf]
  rw [readListOf, hx, rbind_eq _ (readNat_encode _ _), readCount_encode read enc h]

theorem saveReader_encode (sd : SaveData) (r : List Nat) :
    saveReader (encodeSave sd ++ r) = some (sd, r) := by
  have hx : encodeSave sd ++ r =
      saveVersion ::
        (encodeRat sd.posX ++ (encodeRat sd.posY ++ (encodeInt sd.hp ++
          (sd.coins :: (encodeListOf encodeAbility sd.abilities ++
            (encodeListOf encodeCell sd.collected ++
              (encodeListOf encodeCell sd.vanished ++ r))))))) := by
    simp [encodeSave]
  rw [saveReader, hx, rbind_eq _ (readNat_encode _ _), if_pos rfl,
    rbind_eq _ (readRat_encode _ _), rbind_eq _ (readRat_encode _ _),
    rbind_eq _ (readInt_encode _ _), rbind_eq _ (readNat_encode _ _),
    rbind_eq _ (readListOf_encode readAbility encodeAbility readAbility_encode _ _),
    rbind_eq _ (readListOf_encode readCell encodeCell readCell_encode _ _),
    rbind_eq _ (readListOf_encode readCell encodeCell readCell_encode _ _), readPure]

theorem saveReader_serialize (w : World) :
    saveReader (serializeWorld w) = some (toSaveData w, []) := by
  have := saveReader_encode (toSaveData w) []
  simpa [serializeWorld] using this

/-- A reader consumes an exactly-determined prefix of the stream: on
success it has read some tokens `c`, and it would parse the same value and
leave any continuation untouched. -/
def ReaderExact (p : List Nat → Option (α × List Nat)) : Prop :=
  ∀ l a r, p l = some (a, r) → ∃ c, l = c ++ r ∧ ∀ s, p (c ++ s) = some (a, s)

theorem exact_readPure (a : α) : ReaderExact (readPure a) := by
  intro l b r h
  simp only [readPure, Option.some.injEq, Prod.mk.injEq] at h
  exact ⟨[], by simp [h.1, h.2, readPure]⟩

theorem exact_readNone : ReaderExact (readNone : List Nat → Option (α × List Nat)) := by
  intro l a r h
  simp [readNone] at h

theorem exact_readNat : ReaderExact readNat := by
  intro l a r h
  cases l with
  | nil => simp [readNat] at h
  | cons x rest =>
      simp only [readNat, Option.some.injEq, Prod.mk.injEq] at h
      exact ⟨[x], by simp [h.1, h.2, readNat]⟩

theorem exact_ite {c : Prop} [Decidable c] {p q : List Nat → Option (α × List Nat)}
    (hp : ReaderExact p) (hq : ReaderExact q) : ReaderExact (if c then p else q) := by
  by_cases h : c
  · simpa [h] using hp
  · simpa [h] using hq

theorem exact_rbind {p : List Nat → Option (α × List Nat)}
    {q : α → List Nat → Option (β × List Nat)}
    (hp : ReaderExact p) (hq : ∀ a, ReaderExact (q a)) : ReaderExact (rbind p q) := by
  intro l b r h
  unfold rbind at h
  cases hpl : p l with
  | none => rw [hpl] at h; exact absurd h (by simp)
  | some ar =>
      obtain ⟨a, r1⟩ := ar
      rw [hpl] at h
      obtain ⟨c1, hl, hc1⟩ := hp l a r1 hpl
      obtain ⟨c2, hr1, hc2⟩ := hq a r1 b r h
      refine ⟨c1 ++ c2, ?_, ?_⟩
      · rw [hl, hr1, List.append_assoc]
      · intro s
        rw [List.append_assoc]
        simp [rbind, hc1, hc2]

theorem exact_readInt : ReaderExact readInt := by
  unfold readInt
  exact exact_rbind exact_readNat (fun sign =>
    exact_rbind exact_readNat (fun mag =>
      exact_ite (exact_readPure _) (exact_ite (exact_readPure _) exact_readNone)))

theorem exact_readRat : ReaderExact readRat := by
  unfold readRat
  exact exact_rbind exact_readInt (fun num =>
    exact_rbind exact_readNat (fun den => exact_ite exact_readNone (exact_readPure _)))

theorem exact_readAbility : ReaderExact readAbility := by
  unfold readAbility
  refine exact_rbind exact_readNat (fun code => ?_)
  cases h : Ability.ofCode code <;> simp only [h]
  · exact exact_readNone
  · exact exact_readPure _

theorem exact_readCell : ReaderExact readCell := by
  unfold readCell
  exact exact_rbind exact_readNat (fun x =>
    exact_rbind exact_readNat (fun y => exact_readPure _))

theorem exact_readCount {read : List Nat → Option (α × List Nat)}
    (hread : ReaderExact read) : ∀ n, ReaderExact (readCount read n) := by
  intro n
  induction n with
  | zero => exact exact_readPure _
  | succ n ih =>
      rw [readCount]
      exact exact_rbind hread (fun a => exact_rbind ih (fun as => exact_readPure _))

theorem exact_readListOf {read : List Nat → Option (α × List Nat)}
    (hread : ReaderExact read) : ReaderExact (readListOf read) := by
  unfold readListOf
  exact exact_rbind exact_readNat (fun n => exact_readCount hread n)

theorem exact_saveReader : ReaderExact saveReader := by
  unfold saveReader
  refine exact_rbind exact_readNat (fun v => exact_ite ?_ exact_readNone)
  exact exact_rbind exact_readRat (fun px =>
    exact_rbind exact_readRat (fun py =>
      exact_rbind exact_readInt (fun hp =>
        exact_rbind exact_readNat (fun coins =>
          exact_rbind (exact_readListOf exact_readAbility) (fun abs =>
            exact_rbind (exact_readListOf exact_readCell) (fun col =>
              exact_rbind (exact_readListOf exact_readCell) (fun van =>
                exact_readPure _)))))))

/-- Truncating a serialized blob always makes deserialization fail: the
schema reader consumes the whole valid blob, so no proper prefix parses. -/
theorem deserialize_truncated_aux (w : World) (lvl : Level) (k : Nat)
    (hk : k < (serializeWorld w).length) :
    deserializeWorld lvl (List.take k (serializeWorld w)) = none := by
  rw [deserializeWorld]
  cases hsr : saveReader (List.take k (serializeWorld w)) with
  | none => rfl
  | some sdr =>
      obtain ⟨sd, rest⟩ := sdr
      by_cases hrest : rest = []
      · subst hrest
        exfalso
        obtain ⟨c, hc, hall⟩ := exact_saveReader _ sd [] hsr
        rw [List.append_nil] at hc
        have hfull : saveReader (serializeWorld w) =
            some (sd, List.drop k (serializeWorld w)) := by
          conv_lhs => rw [← List.take_append_drop k (serializeWorld w), hc]
          exact hall _
        rw [saveReader_serialize] at hfull
        simp only [Option.some.injEq, Prod.mk.injEq] at hfull
        have hlen := List.drop_eq_nil_iff.mp hfull.2.symm
        omega
      · simp [hrest]

/-- C1: for every world state `w` (one satisfying the data-model invariant
that HP is clamped at or above 0), `deserialize(serialize(w))` reproduces
every persisted field of `w` exactly — position, hp, coins, abilities, the
collected-coin set and the vanished-block set — while every field outside
the persisted set (velocity, the airborne-jump budget, the dynamic
entities, the input-translator state) is reset to its level-default value
rather than preserved from `w`. -/
theorem save_restore_roundtrip (w : World) (hhp : 0 ≤ w.player.hp) :
    deserializeWorld w.level (serializeWorld w) =
      some
        { level := w.level
          player :=
            { pos := w.player.pos, vel := (0, 0), hp := w.player.hp,
              coins := w.player.coins, abilities := w.player.abilities,
              usedDoubleJump := false }
          collected := w.collected
          vanished := w.vanished
          entities := defaultEntities w.level
          tracker := { held := [], consumed := [] } } := by
  rw [deserializeWorld, saveReader_serialize]
  simp [restoreWorld, toSaveData, max_eq_right hhp]

/-- A concrete world over `lvl0` used to instantiate witnesses.  Its
numeric fields are literals so that witness hypotheses evaluate inside the
kernel. -/
def w0 : World :=
  { level := lvl0
    player :=
      { pos := (0, 0), vel := (0, 0), hp := 3, coins := 0, abilities := [],
        usedDoubleJump := false }
    collected := []
    vanished := []
    entities := []
    tracker := { held := [], consumed := [] } }

/-- Witness for C1 at the concrete world `w0`. -/
theorem save_restore_roundtrip_witness :
    0 ≤ w0.player.hp ∧
      deserializeWorld w0.level (serializeWorld w0) =
        some
          { level := w0.level
            player :=
              { pos := w0.player.pos, vel := (0, 0), hp := w0.player.hp,
                coins := w0.player.coins, abilities := w0.player.abilities,
                usedDoubleJump := false }
            collected := w0.collected
            vanished := w0.vanished
            entities := defaultEntities w0.level
            tracker := { held := [], consumed := [] } } :=
  ⟨by decide, save_restore_roundtrip w0 (by decide)⟩

/-- C2: `apply_save_data` on a corrupt blob (one `deserialize` rejects via
`CorruptSaveError`) is silently recoverable — the call is ignored and the
World afterwards is exactly the World before the attempt — and every
truncation of a valid serialized blob is such a corrupt blob. -/
theorem apply_save_data_corrupt_silent :
    (∀ (w : World) (blob : List Nat),
        deserializeWorld w.level blob = none → applySaveData w blob = w) ∧
      ∀ (w : World) (lvl : Level) (k : Nat),
        k < (serializeWorld w).length →
          deserializeWorld lvl (List.take k (serializeWorld w)) = none := by
  constructor
  · intro w blob h
    rw [applySaveData, h]
  · intro w lvl k hk
    exact deserialize_truncated_aux w lvl k hk

/-- Witness for C2: a concretely truncated save blob is rejected and the
World is untouched. -/
theorem apply_save_data_corrupt_silent_witness :
    deserializeWorld w0.level (List.take 3 (serializeWorld w0)) = none ∧
      applySaveData w0 (List.take 3 (serializeWorld w0)) = w0 :=
  ⟨apply_save_data_corrupt_silent.2 w0 w0.level 3 (by decide),
   apply_save_data_corrupt_silent.1 w0 _ (by decide)⟩

/-- C3 counterexample: the rafLoop of the shell variant in
`src/unnamed/part_000` passes the raw elapsed time to `step` with no clamp;
at a 200 ms frame gap it passes 0.2 s, above the 0.1 s ceiling, so not
every step call made by a host shell in this repository is clamped. -/
theorem rafLoop_unclamped_counterexample : ¬ rafLoopDtOld 200 0 ≤ 1 / 10 := by
  norm_num [rafLoopDtOld]

/-- C3 amended: in the current host shell `src/web/src/App.ts` (rafLoop,
lines 30 to 33), every call to `step` after the first frame passes
`min(0.1, elapsed seconds)`, which never exceeds 0.1 s. -/
theorem rafLoop_dt_clamped (timestamp lastTimestamp : ℚ) :
    rafLoopDt timestamp lastTimestamp ≤ 1 / 10 :=
  min_le_left _ _

/-- C7: `load` fails (MalformedMapError) exactly when some referenced tile
id has no tileset entry or no spawn marker exists; and on the real tileset
data, whose spike tile's hazard polygon is anchored at y = 33 and so leaves
the 32-by-32 tile bounds, `load` succeeds and silently clamps the polygon
to `[(4,32), (16,7), (29,32)]`. -/
theorem load_malformed_characterization :
    (∀ (ts : Tileset) (md : MapData),
        load ts md = none ↔
          ((∃ c ∈ md.cells, ¬c.2 < ts.tileCount) ∨
            ∀ c ∈ md.cells, cellIsSpawn ts c = false)) ∧
      load mainTiles spikeMap =
        some
          { solidCells := [], coinCells := [], powerupCells := [], vanishCells := [],
            hazardPolys := [((0, 0), [(4, 32), (16, 7), (29, 32)])],
            lavaCells := [], waterCells := [], entityDefs := [], spawn := (1, 0) } := by
  constructor
  · intro ts md
    rw [load]
    by_cases hall : md.cells.all (fun c => decide (c.2 < ts.tileCount)) = true
    · rw [if_pos hall]
      cases hf : md.cells.find? (fun c => cellIsSpawn ts c) with
      | some sc =>
          have hsc := List.find?_some hf
          have hmem := List.mem_of_find?_eq_some hf
          refine iff_of_false (by simp) ?_
          rintro (⟨c, hc, hlt⟩ | hno)
          · have := List.all_eq_true.mp hall c hc
            simp at this
            exact hlt this
          · have := hno sc hmem
            simp [hsc] at this
      | none =>
          refine iff_of_true rfl (Or.inr ?_)
          intro c hc
          simpa using List.find?_eq_none.mp hf c hc
    · rw [if_neg hall]
      refine iff_of_true rfl (Or.inl ?_)
      simpa [List.all_eq_true] using hall
  · decide

theorem run_cons (w : World) (op : Op) (ops : List Op) :
    run w (op :: ops) = run (applyOp op w) ops := rfl

theorem run_append (w : World) (l1 l2 : List Op) :
    run w (l1 ++ l2) = run (run w l1) l2 :=
  List.foldl_append _ _ _ _

theorem jumpPending_consume (s : InputState) : jumpPending s.consume = false := by
  by_cases h : GameKey.jump ∈ s.held <;>
    simp [jumpPending, InputState.consume, h]

theorem stepWorld_tracker (env : StepEnv) (w : World) :
    (stepWorld env w).tracker = w.tracker.consume := rfl

theorem stepFired_of_notPending (env : StepEnv) (w : World)
    (h : jumpPending w.tracker = false) : stepFired env w = false := by
  simp [stepFired, h]

theorem countImpulses_steps_le (envs : List StepEnv) :
    ∀ w : World,
      countImpulses w (envs.map Op.stepOp) ≤ 1 ∧
        (jumpPending w.tracker = false → countImpulses w (envs.map Op.stepOp) = 0) := by
  induction envs with
  | nil => intro w; simp [countImpulses]
  | cons e rest ih =>
      intro w
      rw [List.map_cons, countImpulses]
      have hnext : jumpPending (applyOp (Op.stepOp e) w).tracker = false := by
        rw [applyOp, stepWorld_tracker]
        exact jumpPending_consume w.tracker
      have h0 := (ih (applyOp (Op.stepOp e) w)).2 hnext
      constructor
      · rw [h0]
        split <;> simp
      · intro hp
        rw [stepFired_of_notPending e w hp, h0]
        simp

/-- C4: jump is edge-triggered — if the jump key is held across 100
consecutive steps with no KeyUp in between (the operations are pure
simulation steps), the player does not have `double_jump`, and the player
never re-contacts the ground after the first step, then at most one jump
impulse is applied over those steps. -/
theorem jump_edge_triggered (w : World) (envs : List StepEnv)
    (hheld : GameKey.jump ∈ w.tracker.held)
    (hlen : envs.length = 100)
    (hdj : Ability.double_jump ∉ w.player.abilities)
    (hgr : ∀ e ∈ envs.drop 1, e.grounded = false) :
    countImpulses w (envs.map Op.stepOp) ≤ 1 :=
  (countImpulses_steps_le envs w).1

/-- A trivial step environment for witnesses: zero dt, airborne, nothing
touched. -/
def env0 : StepEnv := { dt := 0, grounded := false, touched := [], onHazard := false }

/-- The witness world `w0` with the jump key held. -/
def w1 : World := { w0 with tracker := { held := [GameKey.jump], consumed := [] } }

/-- Witness for C4 at 100 concrete airborne steps with jump held. -/
theorem jump_edge_triggered_witness :
    countImpulses w1 ((List.replicate 100 env0).map Op.stepOp) ≤ 1 :=
  jump_edge_triggered w1 (List.replicate 100 env0) (by decide) (by decide) (by decide)
    (by decide)

theorem pickupCell_collected (lvl : Level) (st : PickupState) (c : Nat × Nat)
    (h : c ∈ st.collected) :
    (pickupCell lvl st c).coins = st.coins ∧ (pickupCell lvl st c).collected = st.collected := by
  rw [pickupCell, if_neg (fun hc => hc.2 h)]
  cases hf : lvl.powerupCells.find? (fun p => p.1 == c) <;>
    simp only [hf] <;> split_ifs <;> simp

theorem pickupCell_new (lvl : Level) (st : PickupState) (c : Nat × Nat)
    (hc : c ∈ lvl.coinCells) (hn : c ∉ st.collected) :
    pickupCell lvl st c = { st with coins := st.coins + 1, collected := c :: st.collected } := by
  rw [pickupCell, if_pos ⟨hc, hn⟩]

theorem stepWorld_coins_single_collected (env : StepEnv) (w : World) (m : Nat × Nat)
    (ht : env.touched = [m]) (hcol : m ∈ w.collected) :
    (stepWorld env w).player.coins = w.player.coins ∧
      (stepWorld env w).collected = w.collected := by
  have h := pickupCell_collected w.level
    { coins := w.player.coins, abilities := w.player.abilities,
      collected := w.collected, vanished := w.vanished } m hcol
  simp only [stepWorld, ht, List.foldl]
  exact ⟨h.1, h.2⟩

theorem stepWorld_coins_single_new (env : StepEnv) (w : World) (m : Nat × Nat)
    (ht : env.touched = [m]) (hc : m ∈ w.level.coinCells) (hn : m ∉ w.collected) :
    (stepWorld env w).player.coins = w.player.coins + 1 ∧
      m ∈ (stepWorld env w).collected := by
  have h := pickupCell_new w.level
    { coins := w.player.coins, abilities := w.player.abilities,
      collected := w.collected, vanished := w.vanished } m hc hn
  simp [stepWorld, ht, List.foldl, h]

theorem run_coins_preserved (envs : List StepEnv) (m : Nat × Nat) :
    ∀ w : World, (∀ e ∈ envs, e.touched = [m]) → m ∈ w.collected →
      (run w (envs.map Op.stepOp)).player.coins = w.player.coins ∧
        m ∈ (run w (envs.map Op.stepOp)).collected := by
  induction envs with
  | nil => intro w _ hcol; exact ⟨rfl, hcol⟩
  | cons e rest ih =>
      intro w hall hcol
      rw [List.map_cons, run_cons]
      have hstep := stepWorld_coins_single_collected e w m (hall e (by simp)) hcol
      have hnext := ih (stepWorld e w) (fun x hx => hall x (by simp [hx]))
        (by rw [hstep.2]; exact hcol)
      refine ⟨?_, hnext.2⟩
      rw [show applyOp (Op.stepOp e) w = stepWorld e w from rfl, hnext.1, hstep.1]

/-- C5: coin pickup is idempotent — overlapping an uncollected coin marker
over N > 1 steps increments the coin count exactly once: after the first
overlapping step (and after every later one) the coin count is exactly one
more than before, and the marker is in the collected set. -/
theorem coin_pickup_idempotent (w : World) (m : Nat × Nat) (envs : List StepEnv)
    (hc : m ∈ w.level.coinCells) (hn : m ∉ w.collected)
    (hall : ∀ e ∈ envs, e.touched = [m]) (hN : 1 < envs.length) :
    ∀ k, 1 ≤ k → k ≤ envs.length →
      (run w ((envs.take k).map Op.stepOp)).player.coins = w.player.coins + 1 ∧
        m ∈ (run w ((envs.take k).map Op.stepOp)).collected := by
  intro k hk1 hk2
  cases envs with
  | nil => simp at hN
  | cons e rest =>
      cases k with
      | zero => omega
      | succ k =>
          rw [List.take_succ_cons, List.map_cons, run_cons,
            show applyOp (Op.stepOp e) w = stepWorld e w from rfl]
          have hfirst := stepWorld_coins_single_new e w m (hall e (by simp)) hc hn
          have hpres := run_coins_preserved (rest.take k) m (stepWorld e w)
            (fun x hx => hall x (List.mem_cons_of_mem e (List.take_subset _ _ hx)))
            hfirst.2
          exact ⟨by rw [hpres.1, hfirst.1], hpres.2⟩

/-- The step environment overlapping the coin marker of `lvl0`. -/
def envC : StepEnv := { dt := 0, grounded := false, touched := [(0, 0)], onHazard := false }

/-- Witness for C5: two concrete overlapping steps score the coin once. -/
theorem coin_pickup_idempotent_witness :
    (run w0 (((List.replicate 2 envC).take 2).map Op.stepOp)).player.coins =
        w0.player.coins + 1 ∧
      (0, 0) ∈ (run w0 (((List.replicate 2 envC).take 2).map Op.stepOp)).collected :=
  coin_pickup_idempotent w0 (0, 0) (List.replicate 2 envC) (by decide) (by decide)
    (by decide) (by decide) 2 (by decide) (by decide)

theorem pickupCell_abilities_subset (lvl : Level) (st : PickupState) (c : Nat × Nat) :
    st.abilities ⊆ (pickupCell lvl st c).abilities := by
  rw [pickupCell]
  by_cases h1 : c ∈ lvl.coinCells ∧ c ∉ st.collected
  · rw [if_pos h1]; exact fun a ha => ha
  · rw [if_neg h1]
    cases hf : lvl.powerupCells.find? (fun p => p.1 == c) with
    | none =>
        simp only [hf]
        split_ifs <;> exact fun a ha => ha
    | some pa =>
        simp only [hf]
        split_ifs with h2
        · exact fun a ha => ha
        · exact fun a ha => List.mem_cons_of_mem _ ha

theorem foldl_pickup_abilities (lvl : Level) (cells : List (Nat × Nat)) :
    ∀ st : PickupState, st.abilities ⊆ (cells.foldl (pickupCell lvl) st).abilities := by
  induction cells with
  | nil => intro st; exact fun a ha => ha
  | cons c cs ih =>
      intro st
      exact (pickupCell_abilities_subset lvl st c).trans (ih (pickupCell lvl st c))

theorem applyOp_abilities_subset (op : Op) (hop : op.isRestore = false) (w : World) :
    w.player.abilities ⊆ (applyOp op w).player.abilities := by
  cases op with
  | stepOp env =>
      show w.player.abilities ⊆ (stepWorld env w).player.abilities
      simp only [stepWorld]
      exact foldl_pickup_abilities w.level env.touched
        { coins := w.player.coins, abilities := w.player.abilities,
          collected := w.collected, vanished := w.vanished }
  | inputOp ev => exact fun a ha => ha
  | restoreOp blob => simp [Op.isRestore] at hop

/-- C6: within a session as the host shell drives it (`App.ts` lines 108 to
121: at most one save restore, applied right after the fresh World is
constructed, then only steps and input events), the unlocked-ability set
grows monotonically across every operation: the fresh World's abilities are
a subset of the restored World's, and every later step or input event only
enlarges the set. -/
theorem abilities_monotone_session (lvl : Level) (blob : List Nat) (ops : List Op)
    (hops : ∀ op ∈ ops, op.isRestore = false) :
    (initWorld lvl).player.abilities ⊆
        (applySaveData (initWorld lvl) blob).player.abilities ∧
      ∀ n, (run (applySaveData (initWorld lvl) blob) (ops.take n)).player.abilities ⊆
        (run (applySaveData (initWorld lvl) blob) (ops.take (n + 1))).player.abilities := by
  constructor
  · simp [initWorld]
  · intro n
    by_cases hn : n < ops.length
    · rw [List.take_succ, List.getElem?_eq_getElem hn]
      simp only [Option.toList_some]
      rw [run_append]
      have hmem : ops[n] ∈ ops := List.getElem_mem hn
      exact applyOp_abilities_subset ops[n] (hops _ hmem) _
    · rw [List.take_of_length_le (by omega), List.take_of_length_le (by omega)]
      exact fun a ha => ha

/-- Witness for C6 on a concrete session: empty restore blob, one step. -/
theorem abilities_monotone_session_witness :
    (run (applySaveData (initWorld lvl0) []) ([Op.stepOp env0].take 0)).player.abilities ⊆
      (run (applySaveData (initWorld lvl0) []) ([Op.stepOp env0].take 1)).player.abilities :=
  (abilities_monotone_session lvl0 [] [Op.stepOp env0] (by decide)).2 0

theorem deserialize_hp_nonneg (lvl : Level) (blob : List Nat) (w2 : World)
    (h : deserializeWorld lvl blob = some w2) : 0 ≤ w2.player.hp := by
  rw [deserializeWorld] at h
  cases hsr : saveReader blob with
  | none => rw [hsr] at h; cases h
  | some sdr =>
      obtain ⟨sd, rest⟩ := sdr
      rw [hsr] at h
      cases rest with
      | nil =>
          have h2 : some (restoreWorld lvl sd) = some w2 := h
          injection h2 with h3
          rw [← h3]
          exact le_max_left 0 sd.hp
      | cons x xs => simp at h

theorem applyOp_hp_nonneg (op : Op) (w : World) (h : 0 ≤ w.player.hp) :
    0 ≤ (applyOp op w).player.hp := by
  cases op with
  | stepOp env =>
      show 0 ≤ (stepWorld env w).player.hp
      simp only [stepWorld]
      split_ifs with hc
      · exact le_max_left 0 _
      · exact h
  | inputOp ev => exact h
  | restoreOp blob =>
      rw [applyOp, applySaveData]
      cases hd : deserializeWorld w.level blob with
      | none => exact h
      | some w2 => exact deserialize_hp_nonneg w.level blob w2 hd

/-- C8: in every state reachable from a freshly loaded World by any
sequence of steps, input events and save restores, `character_state()`
reports an integer hp that is at least 0 and a power-up set drawn from
\x7bwall_jump, dash, water, small, lava, double_jump\x7d. -/
theorem char_state_wellformed (lvl : Level) (ops : List Op) :
    0 ≤ (charState (run (initWorld lvl) ops)).hp ∧
      (charState (run (initWorld lvl) ops)).power_ups ⊆ allAbilityNames := by
  constructor
  · have hrun : ∀ (l : List Op) (w : World), 0 ≤ w.player.hp → 0 ≤ (run w l).player.hp := by
      intro l
      induction l with
      | nil => intro w h; exact h
      | cons op rest ih =>
          intro w h
          rw [run_cons]
          exact ih _ (applyOp_hp_nonneg op w h)
    exact hrun ops (initWorld lvl) (by norm_num [initWorld, initialHp])
  · intro s hs
    simp only [charState, List.mem_map] at hs
    obtain ⟨a, -, rfl⟩ := hs
    cases a <;> simp [Ability.toName, allAbilityNames]

/-- C10: keyboard events delivered while `gameState` is still null (before
the GameState is constructed) are silently dropped by the host shell.  No
engine call is emitted, `gameState` stays null, and the handlers store
nothing derived from the event — the post-event host state is the old one,
except that a non-repeat `f` key toggles the debug overlay — so dropped
pre-load events can never be queued or replayed. -/
theorem preload_events_dropped (s : HostState) (e : KeyboardEvent)
    (h : s.gameState = none) :
    (onKeyDown e s).2 = [] ∧ (onKeyDown e s).1.gameState = none ∧
      ((onKeyDown e s).1 = s ∨
        (onKeyDown e s).1 = { s with debugOpen := !s.debugOpen }) ∧
      (onKeyUp e s).2 = [] ∧ (onKeyUp e s).1 = s := by
  rw [onKeyDown, onKeyUp]
  by_cases hr : e.isRepeat
  · simp [hr, h]
  · by_cases hf : e.key = "f" <;> simp [hr, hf, h]

/-- The host state before the GameState has been constructed. -/
def hs0 : HostState := { gameState := none, debugOpen := false }

/-- Witness for C10 at a concrete pre-load key event. -/
theorem preload_events_dropped_witness :
    (onKeyDown { key := "a", isRepeat := false } hs0).2 = [] ∧
      (onKeyDown { key := "a", isRepeat := false } hs0).1.gameState = none ∧
      ((onKeyDown { key := "a", isRepeat := false } hs0).1 = hs0 ∨
        (onKeyDown { key := "a", isRepeat := false } hs0).1 =
          { hs0 with debugOpen := !hs0.debugOpen }) ∧
      (onKeyUp { key := "a", isRepeat := false } hs0).2 = [] ∧
      (onKeyUp { key := "a", isRepeat := false } hs0).1 = hs0 :=
  preload_events_dropped hs0 { key := "a", isRepeat := false } rfl

end Tmv
